import Mathlib

/-!
Shallow embedding of `src/dvc/api/experiments.py` (the DVC API experiments
module): the checkpoint signal client `make_checkpoint`, the save delegate
`exp_save`, and the cell-value normalization `_postprocess` used by `exp_show`.

Effectful Python code is modelled by explicit inputs (the process environment,
the outcome of `Repo.find_root()`, the supervisor's file-deletion schedule) and
an explicit trace of filesystem events. The unbounded poll loop is modelled
with fuel: `none` means the loop has not returned within the given fuel.
-/

/-! ## Process environment and constants -/

/-- A process environment: `os.getenv` returns `none` for an unset variable. -/
def Env : Type := String → Option String

/-- Name of the supervision-flag variable, `dvc.env.DVC_CHECKPOINT`
(defined outside `src/`; its exact value is irrelevant to every claim,
which depend only on lookups at this key). -/
def DVC_CHECKPOINT : String := "DVC_CHECKPOINT"

/-- Name of the repository-root override variable, `dvc.env.DVC_ROOT`. -/
def DVC_ROOT : String := "DVC_ROOT"

/-- The repository marker directory, `Repo.DVC_DIR` (".dvc" in DVC). -/
def DVC_DIR : String := ".dvc"

/-- The signal file name, `CheckpointTask.SIGNAL_FILE` (defined outside
`src/`; in DVC it is "DVC_CHECKPOINT"). -/
def SIGNAL_FILE : String := "DVC_CHECKPOINT"

/-- Failure of `Repo.find_root()`: the upward directory search found no
repository marker directory (`NotDvcRepoError`; the spec's
`RepositoryNotFoundError`). -/
inductive RepoError where
  | notDvcRepo
deriving DecidableEq, Repr

/-! ## Checkpoint signal client (`make_checkpoint`) -/

/-- Filesystem effects of `make_checkpoint`, in program order. -/
inductive Event where
  | fileWrite (path : String) (content : String)
  | flush (path : String)
  | fsync (path : String)
  | checkExists (path : String) (result : Bool)
  | sleep (seconds : ℚ)
deriving DecidableEq, Repr

/-- The argument of `sleep(0.1)` in the poll loop, in seconds. -/
def pollInterval : ℚ := 1 / 10

/-- Embedding of `os.path.join(root_dir, Repo.DVC_DIR, "tmp", CheckpointTask.SIGNAL_FILE)`. -/
def signalFilePath (root_dir : String) : String :=
  root_dir ++ "/" ++ DVC_DIR ++ "/tmp/" ++ SIGNAL_FILE

/-- Events of the `with builtins.open(signal_file, "w") ...` block: create or
truncate the file, write the empty string, `fobj.flush()`, `os.fsync(...)`. -/
def writePhase (path : String) : List Event :=
  [Event.fileWrite path "", Event.flush path, Event.fsync path]

/-- Embedding of `while os.path.exists(signal_file): sleep(0.1)`.
`seen k` is what the k-th `os.path.exists` check observes (the supervisor's
deletion schedule); `k` is the index of the next check; `fuel` bounds the
unrolling, `none` meaning the loop has not returned within the fuel.
On return the trace holds one `checkExists` per check and one
`sleep pollInterval` after every check that observed the file present. -/
def pollEvents (path : String) (seen : Nat → Bool) : Nat → Nat → Option (List Event)
  | 0, _ => none
  | fuel + 1, k =>
      if seen k then
        (pollEvents path seen fuel (k + 1)).map
          (fun t => Event.checkExists path true :: Event.sleep pollInterval :: t)
      else
        some [Event.checkExists path false]

/-- Embedding of `make_checkpoint()`.

Inputs: `env` the process environment; `findRoot` the outcome of
`Repo.find_root()` on the current filesystem and working directory; `seen`
the supervisor's deletion schedule as observed by the poll loop; `fuel`
the poll-loop bound. Output: `Except.error` when the call raises,
otherwise the trace of filesystem events (`none` when the poll loop does
not return within the fuel).

Faithful to the source line by line:
- `if os.getenv(DVC_CHECKPOINT) is None: return` — only presence of the
  variable is tested, before anything else runs;
- `root_dir = os.getenv(DVC_ROOT, Repo.find_root())` — Python evaluates the
  default argument eagerly, so `Repo.find_root()` runs, and its exception
  propagates, even when `DVC_ROOT` is set; only when it returns normally is
  its value discarded in favour of a set `DVC_ROOT`;
- the write/flush/fsync block, then the poll loop. -/
def make_checkpoint (env : Env) (findRoot : Except RepoError String)
    (seen : Nat → Bool) (fuel : Nat) : Except RepoError (Option (List Event)) :=
  if env DVC_CHECKPOINT = none then
    Except.ok (some [])
  else
    match findRoot with
    | Except.error e => Except.error e
    | Except.ok d =>
        let root_dir := (env DVC_ROOT).getD d
        let signal_file := signalFilePath root_dir
        Except.ok ((pollEvents signal_file seen fuel 0).map
          (fun t => writePhase signal_file ++ t))

/-- The poll trace when the first `k` checks observe the file present and
check `k` observes it absent: `k` present-checks each followed by one
100 ms sleep, then the final absent check on which the loop returns. -/
def pollTraceUpTo (path : String) : Nat → List Event
  | 0 => [Event.checkExists path false]
  | k + 1 =>
      Event.checkExists path true :: Event.sleep pollInterval ::
        pollTraceUpTo path k

/-! ## Python float parsing (`float(v_str)`)

Model of CPython `float(str)` over ASCII text: strip surrounding whitespace;
underscores (PEP 515) must sit between two digits and are then removed; an
optional sign; then case-insensitively "inf"/"infinity"/"nan", or a decimal
literal `digits [. digits] [e [sign] digits]` with at least one mantissa
digit. Finite values are carried as exact rationals (binary64 rounding is
not modelled; no claim depends on it). -/

/-- Whitespace stripped by `float()` (ASCII). -/
def isPyWs (c : Char) : Bool :=
  c = ' ' || c = '\t' || c = '\n' || c = '\r' || c = '\x0b' || c = '\x0c'

/-- Strip leading and trailing whitespace. -/
def trimWs (cs : List Char) : List Char :=
  ((cs.dropWhile isPyWs).reverse.dropWhile isPyWs).reverse

/-- Helper for `underscoresOk`: `prev` is the character before the list head. -/
def underscoresAux : Char → List Char → Bool
  | _, [] => true
  | prev, c :: rest =>
      if c = '_' then
        (prev.isDigit &&
          (match rest with
           | [] => false
           | d :: _ => d.isDigit)) && underscoresAux c rest
      else underscoresAux c rest

/-- PEP 515 check used by `float()`: every underscore has a decimal digit
immediately before and immediately after it. -/
def underscoresOk : List Char → Bool
  | [] => true
  | c :: rest => (c != '_') && underscoresAux c rest

/-- Optional leading sign: `(negative, rest)`. -/
def splitSign : List Char → Bool × List Char
  | '-' :: rest => (true, rest)
  | '+' :: rest => (false, rest)
  | cs => (false, cs)

/-- Value of a string of decimal digits. -/
def digitsToNat (ds : List Char) : Nat :=
  ds.foldl (fun a c => 10 * a + (c.toNat - 48)) 0

/-- Exponent part after the mantissa (input already lowercased): empty means
exponent 0; otherwise `e [sign] digits` consuming the whole rest. -/
def parseExpPart (cs : List Char) : Option Int :=
  match cs with
  | [] => some 0
  | e :: rest =>
      if e = 'e' then
        let sr := splitSign rest
        let ds := sr.2.takeWhile Char.isDigit
        if ds.isEmpty || !(sr.2.drop ds.length).isEmpty then none
        else some (if sr.1 then -(digitsToNat ds : Int) else (digitsToNat ds : Int))
      else none

/-- Decimal literal `digits [. digits] [exponent]` (input already lowercased,
sign and underscores removed); needs at least one mantissa digit. -/
def parseDecimalBody (cs : List Char) : Option ℚ :=
  let ip := cs.takeWhile Char.isDigit
  let rest1 := cs.drop ip.length
  let fpRest : List Char × List Char :=
    match rest1 with
    | '.' :: r => (r.takeWhile Char.isDigit, r.drop (r.takeWhile Char.isDigit).length)
    | _ => ([], rest1)
  if ip.isEmpty && fpRest.1.isEmpty then none
  else
    match parseExpPart fpRest.2 with
    | none => none
    | some ex =>
        let m : Nat := digitsToNat (ip ++ fpRest.1)
        let net : Int := ex - fpRest.1.length
        some (if 0 ≤ net then mkRat (m * 10 ^ net.toNat) 1 else mkRat m (10 ^ (-net).toNat))

/-- A Python float value: NaN, signed infinity, or a finite value
(carried as an exact rational). -/
inductive PyFloat where
  | nan
  | inf (neg : Bool)
  | finite (val : ℚ)
deriving DecidableEq, Repr

/-- Model of Python `float(s)`: `some` the parsed value, `none` when
`float` raises `ValueError`. -/
def pyFloatOfString (s : String) : Option PyFloat :=
  let cs := trimWs s.toList
  if underscoresOk cs then
    let cs2 := cs.filter (fun c => c != '_')
    let sb := splitSign cs2
    let lbody := sb.2.map Char.toLower
    if lbody = "inf".toList || lbody = "infinity".toList then
      some (PyFloat.inf sb.1)
    else if lbody = "nan".toList then
      some PyFloat.nan
    else
      match parseDecimalBody lbody with
      | none => none
      | some q => some (PyFloat.finite (if sb.1 then -q else q))
  else none

/-! ## Cell values and normalization (`_postprocess`) -/

/-- A table cell value as it reaches `_postprocess`. `text` is a
`rich.text.Text` instance carrying its plain rendering (`str(v)`);
the other constructors are plain Python scalars, which
`isinstance(v, Text)` distinguishes from `text`. -/
inductive Value where
  | text (plain : String)
  | str (s : String)
  | float (f : PyFloat)
  | int (n : Int)
  | bool (b : Bool)
  | pyNone
deriving DecidableEq, Repr

/-- The per-cell step of `_postprocess`: a `rich` Text value is reduced to
its plain string `v_str = str(v)`; `float(v_str)` replaces it on success,
else the plain string `v_str` is kept; every non-Text value is untouched
(the `isinstance(v, Text)` guard fails). -/
def normCell (v : Value) : Value :=
  match v with
  | Value.text s =>
      match pyFloatOfString s with
      | some f => Value.float f
      | none => Value.str s
  | v => v

/-- Whether a value is a float. -/
def isFloatV : Value → Bool
  | Value.float _ => true
  | _ => false

/-- Embedding of `_postprocess(exp_rows)`. Each row is a Python dict,
modelled as an association list in insertion order; the loop
`for k, v in exp_row.items(): ... exp_row[k] = ...` reassigns values at
existing keys only, i.e. maps `normCell` over the values of each row, and
the function returns the same list of rows. -/
def _postprocess (exp_rows : List (List (String × Value))) :
    List (List (String × Value)) :=
  exp_rows.map (fun exp_row => exp_row.map (fun kv => (kv.1, normCell kv.2)))

/-! ## Save delegate (`exp_save`) -/

/-- Errors of the save delegation. -/
inductive SaveError where
  | experimentExists
  | other (msg : String)
deriving DecidableEq, Repr

/-- Repository lifecycle events of the `with Repo() as repo:` block. -/
inductive RepoEvent where
  | acquire
  | release
deriving DecidableEq, Repr

/-- Modelled from the spec: `repo.experiments.save(...)` (the experiments
subsystem, outside `src/`). Per sections 4.2 and 7 of the spec: fails with
`ExperimentExistsError` when `name` collides with an existing experiment
and `force` is false; any other repository-level failure (injected here as
`externalFailure`) propagates unchanged; on success returns a revision
identifier `rev`. `include_untracked` is passed through and does not
affect the error behaviour. -/
def experiments_save (existing : List String) (rev : String)
    (externalFailure : Option String) (name : Option String) (force : Bool)
    (include_untracked : Option (List String)) : Except SaveError String :=
  if (match name with | some n => existing.contains n | none => false) && !force then
    Except.error SaveError.experimentExists
  else
    match externalFailure with
    | some msg => Except.error (SaveError.other msg)
    | none => Except.ok rev

/-- Embedding of `exp_save`: `with Repo() as repo: return
repo.experiments.save(name=..., force=..., include_untracked=...)`. The
context manager acquires the repository on entry and releases it on every
exit path, including when `save` raises; the result (value or raised
error) is the delegate's, unchanged. The second component is the
lifecycle trace. -/
def exp_save (existing : List String) (rev : String)
    (externalFailure : Option String) (name : Option String) (force : Bool)
    (include_untracked : Option (List String)) :
    Except SaveError String × List RepoEvent :=
  (experiments_save existing rev externalFailure name force include_untracked,
   [RepoEvent.acquire, RepoEvent.release])

/-! ## Concrete inputs used by witnesses and counterexamples -/

/-- Environment with the supervision flag and the root override both set. -/
def envOverrideOnly : Env := fun x =>
  if x = DVC_CHECKPOINT then some "1"
  else if x = DVC_ROOT then some "/override" else none

/-- Environment with every variable unset. -/
def emptyEnv : Env := fun _ => none

/-- Environment defining the supervision flag with value "1" and nothing else. -/
def envFlagOne : Env := fun x =>
  if x = DVC_CHECKPOINT then some "1" else none

/-- Environment defining the supervision flag with the empty value and nothing else. -/
def envFlagEmpty : Env := fun x =>
  if x = DVC_CHECKPOINT then some "" else none

/-- Schedule on which every existence check observes the file present. -/
def neverDeleted : Nat → Bool := fun _ => true

/-- Schedule on which the very first existence check observes the file absent. -/
def deletedImmediately : Nat → Bool := fun _ => false

/-! ## Claims about the checkpoint signal client -/

/-- C1 counterexample: with the supervision flag present and the root
override set, a failing upward root search still makes the call fail with
the root-search error. `root_dir = os.getenv(DVC_ROOT, Repo.find_root())`
evaluates its default argument eagerly, so `Repo.find_root()` runs — and
its exception propagates — even when `DVC_ROOT` is set; the claim says that
with the override set a root-search failure cannot fail the call. -/
theorem c1_counterexample :
    envOverrideOnly DVC_ROOT = some "/override" ∧
    envOverrideOnly DVC_CHECKPOINT ≠ none ∧
    make_checkpoint envOverrideOnly (Except.error RepoError.notDvcRepo)
      deletedImmediately 1 = Except.error RepoError.notDvcRepo :=
  ⟨rfl, by decide, rfl⟩

/-- C1 (amended): in a supervised call, the upward root search is always
performed, and the call fails with `RepositoryNotFoundError` exactly when
the search fails — whether or not the override is set; when the search
succeeds, the root used for the signal file prefers the override when set
and is the search result otherwise. -/
theorem c1_root_resolution (env : Env) (findRoot : Except RepoError String)
    (seen : Nat → Bool) (fuel : Nat) (hsup : env DVC_CHECKPOINT ≠ none) :
    ((∃ e, make_checkpoint env findRoot seen fuel = Except.error e) ↔
      ∃ e, findRoot = Except.error e) ∧
    (∀ d, findRoot = Except.ok d →
      make_checkpoint env findRoot seen fuel =
        Except.ok ((pollEvents (signalFilePath ((env DVC_ROOT).getD d)) seen fuel 0).map
          (fun t => writePhase (signalFilePath ((env DVC_ROOT).getD d)) ++ t))) := by
  unfold make_checkpoint
  rw [if_neg hsup]
  cases findRoot with
  | error e =>
      refine ⟨⟨fun _ => ⟨e, rfl⟩, fun _ => ⟨e, rfl⟩⟩, ?_⟩
      intro d hd
      exact absurd hd (by simp)
  | ok d =>
      refine ⟨⟨?_, ?_⟩, ?_⟩
      · rintro ⟨e, he⟩
        simp at he
      · rintro ⟨e, he⟩
        simp at he
      · intro d2 hd
        injection hd with h
        subst h
        rfl

/-- C1 witness: the amended theorem applied at a concrete supervised
environment with the override set and a successful root search. -/
theorem c1_witness :
    envOverrideOnly DVC_CHECKPOINT ≠ none ∧
    (((∃ e, make_checkpoint envOverrideOnly (Except.ok "/found") deletedImmediately 1 =
        Except.error e) ↔
      ∃ e, (Except.ok "/found" : Except RepoError String) = Except.error e) ∧
     (∀ d, (Except.ok "/found" : Except RepoError String) = Except.ok d →
       make_checkpoint envOverrideOnly (Except.ok "/found") deletedImmediately 1 =
         Except.ok ((pollEvents (signalFilePath ((envOverrideOnly DVC_ROOT).getD d))
             deletedImmediately 1 0).map
           (fun t => writePhase (signalFilePath ((envOverrideOnly DVC_ROOT).getD d)) ++ t)))) :=
  ⟨by decide,
   c1_root_resolution envOverrideOnly (Except.ok "/found") deletedImmediately 1 (by decide)⟩

/-- C2: when the supervision flag variable is absent from the environment,
`make_checkpoint` returns immediately with an empty event trace — no
filesystem writes, no error — for every root-search outcome, every
deletion schedule and every fuel. -/
theorem c2_noop_when_unsupervised (env : Env) (findRoot : Except RepoError String)
    (seen : Nat → Bool) (fuel : Nat) (h : env DVC_CHECKPOINT = none) :
    make_checkpoint env findRoot seen fuel = Except.ok (some []) := by
  unfold make_checkpoint
  rw [if_pos h]

/-- C2 witness: the empty environment, with a failing root search, a
never-deleted signal file and zero fuel — the call still returns at once
with no effects. -/
theorem c2_witness :
    emptyEnv DVC_CHECKPOINT = none ∧
    make_checkpoint emptyEnv (Except.error RepoError.notDvcRepo) neverDeleted 0 =
      Except.ok (some []) :=
  ⟨rfl,
   c2_noop_when_unsupervised emptyEnv (Except.error RepoError.notDvcRepo) neverDeleted 0 rfl⟩

/-- C9: the supervision flag is presence-only. Two environments that both
define the flag variable — with arbitrary, possibly different, possibly
empty values — and agree on every other variable make `make_checkpoint`
behave identically on the same remaining inputs. -/
theorem c9_presence_only (e1 e2 : Env) (findRoot : Except RepoError String)
    (seen : Nat → Bool) (fuel : Nat)
    (h1 : e1 DVC_CHECKPOINT ≠ none) (h2 : e2 DVC_CHECKPOINT ≠ none)
    (hagree : ∀ x, x ≠ DVC_CHECKPOINT → e1 x = e2 x) :
    make_checkpoint e1 findRoot seen fuel = make_checkpoint e2 findRoot seen fuel := by
  unfold make_checkpoint
  rw [if_neg h1, if_neg h2, hagree DVC_ROOT (by decide)]

/-- C9 witness: flag value "1" versus the empty flag value, all other
variables unset — identical behaviour. -/
theorem c9_witness :
    envFlagOne DVC_CHECKPOINT ≠ none ∧ envFlagEmpty DVC_CHECKPOINT ≠ none ∧
    make_checkpoint envFlagOne (Except.ok "/found") deletedImmediately 1 =
      make_checkpoint envFlagEmpty (Except.ok "/found") deletedImmediately 1 :=
  ⟨by decide, by decide,
   c9_presence_only envFlagOne envFlagEmpty (Except.ok "/found") deletedImmediately 1
     (by decide) (by decide)
     (fun x hx => by simp [envFlagOne, envFlagEmpty, hx])⟩

/-- Helper: a supervised call with a successful root search produces the
write phase followed by the poll trace, at the signal path under the
resolved root. -/
theorem make_checkpoint_supervised_ok (env : Env) (d : String) (seen : Nat → Bool)
    (fuel : Nat) (hsup : env DVC_CHECKPOINT ≠ none) :
    make_checkpoint env (Except.ok d) seen fuel =
      Except.ok ((pollEvents (signalFilePath ((env DVC_ROOT).getD d)) seen fuel 0).map
        (fun t => writePhase (signalFilePath ((env DVC_ROOT).getD d)) ++ t)) := by
  unfold make_checkpoint
  rw [if_neg hsup]

/-- C4: in every supervised call that returns, the trace starts with the
create/truncate-and-write of the empty signal file, its flush, and its
fsync, in that order, and every existence check of the poll loop lies in
the remainder after them — the durable write completes before the first
existence check. -/
theorem c4_sync_before_poll (env : Env) (d : String) (seen : Nat → Bool)
    (fuel : Nat) (t : List Event) (hsup : env DVC_CHECKPOINT ≠ none)
    (ht : make_checkpoint env (Except.ok d) seen fuel = Except.ok (some t)) :
    ∃ rest, t = Event.fileWrite (signalFilePath ((env DVC_ROOT).getD d)) "" ::
        Event.flush (signalFilePath ((env DVC_ROOT).getD d)) ::
        Event.fsync (signalFilePath ((env DVC_ROOT).getD d)) :: rest ∧
      ∀ p b, Event.checkExists p b ∈ t → Event.checkExists p b ∈ rest := by
  rw [make_checkpoint_supervised_ok env d seen fuel hsup] at ht
  have h2 : (pollEvents (signalFilePath ((env DVC_ROOT).getD d)) seen fuel 0).map
      (fun tt => writePhase (signalFilePath ((env DVC_ROOT).getD d)) ++ tt) = some t := by
    injection ht
  rcases Option.map_eq_some'.mp h2 with ⟨a, _, hta⟩
  refine ⟨a, ?_, ?_⟩
  · rw [← hta]
    rfl
  · intro p b hmem
    rw [← hta] at hmem
    rcases List.mem_append.mp hmem with h | h
    · simp [writePhase] at h
    · exact h

/-- C4 witness: a supervised call with root "/found" and the signal file
deleted before the first check. -/
theorem c4_witness :
    (envFlagOne DVC_CHECKPOINT ≠ none ∧
     make_checkpoint envFlagOne (Except.ok "/found") deletedImmediately 1 =
       Except.ok (some (writePhase (signalFilePath "/found") ++
         [Event.checkExists (signalFilePath "/found") false]))) ∧
    ∃ rest, writePhase (signalFilePath "/found") ++
          [Event.checkExists (signalFilePath "/found") false] =
        Event.fileWrite (signalFilePath ((envFlagOne DVC_ROOT).getD "/found")) "" ::
          Event.flush (signalFilePath ((envFlagOne DVC_ROOT).getD "/found")) ::
          Event.fsync (signalFilePath ((envFlagOne DVC_ROOT).getD "/found")) :: rest ∧
        ∀ p b, Event.checkExists p b ∈ writePhase (signalFilePath "/found") ++
            [Event.checkExists (signalFilePath "/found") false] →
          Event.checkExists p b ∈ rest :=
  ⟨⟨by decide, rfl⟩,
   c4_sync_before_poll envFlagOne "/found" deletedImmediately 1
     (writePhase (signalFilePath "/found") ++
       [Event.checkExists (signalFilePath "/found") false]) (by decide) rfl⟩

/-- Number of sleep events in a trace. -/
def sleepCount (t : List Event) : Nat :=
  (t.filter (fun e => match e with | Event.sleep _ => true | _ => false)).length

/-- Helper: when the first `k0` checks from `start` observe the file present
and check `k0` observes it absent, the poll loop returns the canonical
trace, for any fuel above `k0`. -/
theorem pollEvents_first_absent (path : String) (seen : Nat → Bool) :
    ∀ k0 start fuel, (∀ j, j < k0 → seen (start + j) = true) →
      seen (start + k0) = false → k0 < fuel →
      pollEvents path seen fuel start = some (pollTraceUpTo path k0) := by
  intro k0
  induction k0 with
  | zero =>
      intro start fuel _ hk hf
      cases fuel with
      | zero => exact absurd hf (by omega)
      | succ f =>
          rw [Nat.add_zero] at hk
          simp [pollEvents, hk, pollTraceUpTo]
  | succ k ih =>
      intro start fuel hlt hk hf
      cases fuel with
      | zero => exact absurd hf (by omega)
      | succ f =>
          have h0 : seen start = true := by
            have h := hlt 0 (by omega)
            rw [Nat.add_zero] at h
            exact h
          have hrec : pollEvents path seen f (start + 1) = some (pollTraceUpTo path k) := by
            apply ih
            · intro j hj
              have h := hlt (j + 1) (by omega)
              have e : start + 1 + j = start + (j + 1) := by omega
              rw [e]
              exact h
            · have e : start + 1 + k = start + (k + 1) := by omega
              rw [e]
              exact hk
            · omega
          simp [pollEvents, h0, hrec, pollTraceUpTo]

/-- Helper: the canonical poll trace for first absence at check `k0` holds
exactly `k0` sleep events. -/
theorem pollTraceUpTo_sleepCount (path : String) :
    ∀ k0, sleepCount (pollTraceUpTo path k0) = k0 := by
  intro k0
  induction k0 with
  | zero => rfl
  | succ k ih =>
      simp [pollTraceUpTo, sleepCount, List.filter] at ih ⊢
      omega

/-- Helper: every sleep event in the canonical poll trace sleeps for one
poll interval. -/
theorem pollTraceUpTo_sleep_mem (path : String) :
    ∀ k0 q, Event.sleep q ∈ pollTraceUpTo path k0 → q = pollInterval := by
  intro k0
  induction k0 with
  | zero =>
      intro q hq
      simp [pollTraceUpTo] at hq
  | succ k ih =>
      intro q hq
      simp only [pollTraceUpTo, List.mem_cons] at hq
      rcases hq with h | h | h
      · exact absurd h (by simp)
      · injection h
      · exact ih q h

/-- Helper: a never-deleted signal file makes the poll loop spin beyond any
fuel. -/
theorem pollEvents_none_of_all_true (path : String) (seen : Nat → Bool)
    (h : ∀ k, seen k = true) : ∀ fuel start, pollEvents path seen fuel start = none := by
  intro fuel
  induction fuel with
  | zero => intro start; rfl
  | succ f ih =>
      intro start
      simp [pollEvents, h start, ih (start + 1)]

/-- C5: the wait phase. If the first `k0` checks observe the signal file
present and check `k0` observes it absent, the loop returns with exactly
`k0` sleeps — one per present observation, so return comes one poll
interval plus one check after the deletion; every sleep is one poll
interval, and the interval is 100 ms (`0.1 * 1000`). If no check ever
observes the file absent, the loop never returns (no timeout), and the
supervised call itself never returns. -/
theorem c5_poll_wait (path : String) (seen : Nat → Bool) :
    (∀ k0 fuel, (∀ j, j < k0 → seen j = true) → seen k0 = false → k0 < fuel →
        pollEvents path seen fuel 0 = some (pollTraceUpTo path k0)) ∧
    (∀ k0, sleepCount (pollTraceUpTo path k0) = k0) ∧
    (∀ k0 q, Event.sleep q ∈ pollTraceUpTo path k0 → q = pollInterval) ∧
    pollInterval * 1000 = 100 ∧
    ((∀ k, seen k = true) → ∀ fuel, pollEvents path seen fuel 0 = none) ∧
    (∀ env d fuel, env DVC_CHECKPOINT ≠ none → (∀ k, seen k = true) →
        make_checkpoint env (Except.ok d) seen fuel = Except.ok none) := by
  refine ⟨?_, pollTraceUpTo_sleepCount path, pollTraceUpTo_sleep_mem path, ?_, ?_, ?_⟩
  · intro k0 fuel hlt hk hf
    apply pollEvents_first_absent path seen k0 0 fuel
    · intro j hj
      rw [Nat.zero_add]
      exact hlt j hj
    · rw [Nat.zero_add]
      exact hk
    · exact hf
  · norm_num [pollInterval]
  · intro h fuel
    exact pollEvents_none_of_all_true path seen h fuel 0
  · intro env d fuel hsup hall
    rw [make_checkpoint_supervised_ok env d seen fuel hsup,
      pollEvents_none_of_all_true _ seen hall fuel 0]
    rfl

/-! ## Claims about normalization -/

/-- Helper: concrete evaluation of the float model on "0.825". -/
theorem pyFloat_on_0825 : pyFloatOfString "0.825" = some (PyFloat.finite (825 / 1000)) := by
  have h : (mkRat 825 1000 : ℚ) = 825 / 1000 := by
    rw [Rat.mkRat_eq_div]
    norm_num
  rw [← h]
  decide

/-- Helper: concrete evaluation of the float model on "1e3". -/
theorem pyFloat_on_1e3 : pyFloatOfString "1e3" = some (PyFloat.finite 1000) := by
  have h : (mkRat 1000 1 : ℚ) = 1000 := by
    rw [Rat.mkRat_eq_div]
    norm_num
  rw [← h]
  decide

/-- Helper: concrete evaluation of the float model on " 0.825 " with
surrounding whitespace. -/
theorem pyFloat_on_0825_ws : pyFloatOfString " 0.825 " = some (PyFloat.finite (825 / 1000)) := by
  have h : (mkRat 825 1000 : ℚ) = 825 / 1000 := by
    rw [Rat.mkRat_eq_div]
    norm_num
  rw [← h]
  decide

/-- C3: the per-cell normalization rule of `_postprocess`. A rich text value
whose plain string parses as a Python float becomes that float; a rich
text value whose plain string does not parse becomes that plain string;
every non-rich value — including a plain numeric-looking string — passes
through unchanged; and `_postprocess` applies exactly this rule to every
cell of every row. -/
theorem c3_normalization_rule :
    (∀ s f, pyFloatOfString s = some f → normCell (Value.text s) = Value.float f) ∧
    (∀ s, pyFloatOfString s = none → normCell (Value.text s) = Value.str s) ∧
    (∀ v, (∀ s, v ≠ Value.text s) → normCell v = v) ∧
    normCell (Value.text "0.825") = Value.float (PyFloat.finite (825 / 1000)) ∧
    normCell (Value.text "abc") = Value.str "abc" ∧
    normCell (Value.str "0.825") = Value.str "0.825" ∧
    (∀ exp_rows, _postprocess exp_rows =
      exp_rows.map (fun r => r.map (fun kv => (kv.1, normCell kv.2)))) := by
  refine ⟨?_, ?_, ?_, by simp [normCell, pyFloat_on_0825], by decide, rfl, fun _ => rfl⟩
  · intro s f h
    simp [normCell, h]
  · intro s h
    simp [normCell, h]
  · intro v hv
    cases v with
    | text s => exact absurd rfl (hv s)
    | str s => rfl
    | float f => rfl
    | int n => rfl
    | bool b => rfl
    | pyNone => rfl

/-- Helper: the per-cell normalization step is idempotent — its result is
never a rich text value, so a second pass leaves it unchanged. -/
theorem normCell_idem (v : Value) : normCell (normCell v) = normCell v := by
  cases v with
  | text s =>
      cases h : pyFloatOfString s with
      | some f => simp [normCell, h]
      | none => simp [normCell, h]
  | str s => rfl
  | float f => rfl
  | int n => rfl
  | bool b => rfl
  | pyNone => rfl

/-- Helper: normalizing a row twice equals normalizing it once. -/
theorem normRow_idem (r : List (String × Value)) :
    (r.map (fun kv => (kv.1, normCell kv.2))).map (fun kv => (kv.1, normCell kv.2)) =
      r.map (fun kv => (kv.1, normCell kv.2)) := by
  induction r with
  | nil => rfl
  | cons kv rest ih => simp [ih, normCell_idem]

/-- C6: `_postprocess` is idempotent on every list of experiment rows —
floats stay floats, strings stay strings, untouched values stay
untouched. -/
theorem c6_postprocess_idempotent (exp_rows : List (List (String × Value))) :
    _postprocess (_postprocess exp_rows) = _postprocess exp_rows := by
  unfold _postprocess
  induction exp_rows with
  | nil => rfl
  | cons r rest ih =>
      simp only [List.map_cons, List.cons.injEq] at ih ⊢
      exact ⟨normRow_idem r, ih⟩

/-- Helper: normalizing a row keeps its key list, in order. -/
theorem normRow_keys (r : List (String × Value)) :
    (r.map (fun kv => (kv.1, normCell kv.2))).map Prod.fst = r.map Prod.fst := by
  induction r with
  | nil => rfl
  | cons kv rest ih => simp [ih]

/-- C7: `_postprocess` preserves the table shape — the row count and, for
every row, the key list (hence the key set) are unchanged; only values
change. -/
theorem c7_shape_preserved (exp_rows : List (List (String × Value))) :
    (_postprocess exp_rows).length = exp_rows.length ∧
    (_postprocess exp_rows).map (fun r => r.map Prod.fst) =
      exp_rows.map (fun r => r.map Prod.fst) := by
  constructor
  · simp [_postprocess]
  · unfold _postprocess
    induction exp_rows with
    | nil => rfl
    | cons r rest ih =>
        simp only [List.map_cons, List.cons.injEq] at ih ⊢
        exact ⟨normRow_keys r, ih⟩

/-- C10: the rich text values converted to numbers are exactly those whose
plain string Python `float` accepts — including exponent notation,
surrounding whitespace, and the non-finite forms "nan", "inf" and
"Infinity", which become NaN and infinity rather than staying strings. -/
theorem c10_float_acceptance :
    (∀ s, isFloatV (normCell (Value.text s)) = (pyFloatOfString s).isSome) ∧
    pyFloatOfString "1e3" = some (PyFloat.finite 1000) ∧
    pyFloatOfString " 0.825 " = some (PyFloat.finite (825 / 1000)) ∧
    pyFloatOfString "nan" = some PyFloat.nan ∧
    normCell (Value.text "nan") = Value.float PyFloat.nan ∧
    pyFloatOfString "inf" = some (PyFloat.inf false) ∧
    pyFloatOfString "Infinity" = some (PyFloat.inf false) ∧
    normCell (Value.text "Infinity") = Value.float (PyFloat.inf false) ∧
    pyFloatOfString "abc" = none := by
  refine ⟨?_, pyFloat_on_1e3, pyFloat_on_0825_ws, by decide,
    by
      have h : pyFloatOfString "nan" = some PyFloat.nan := by decide
      simp [normCell, h],
    by decide, by decide,
    by
      have h : pyFloatOfString "Infinity" = some (PyFloat.inf false) := by decide
      simp [normCell, h],
    by decide⟩
  intro s
  cases h : pyFloatOfString s with
  | some f => simp [normCell, h, isFloatV]
  | none => simp [normCell, h, isFloatV]

/-! ## Claim about the save delegate -/

/-- C8: `exp_save` acquires the repository context and releases it on every
exit path — the lifecycle trace is acquire-then-release whether the
delegate succeeds or raises; it delegates to the experiments subsystem's
save and returns its revision identifier unchanged; it fails with
`ExperimentExistsError` exactly when the given name collides with an
existing experiment and `force` is false; and every other
repository-level failure propagates unchanged. -/
theorem c8_exp_save_contract (existing : List String) (rev : String)
    (externalFailure : Option String) (name : Option String) (force : Bool)
    (include_untracked : Option (List String)) :
    (exp_save existing rev externalFailure name force include_untracked).2 =
      [RepoEvent.acquire, RepoEvent.release] ∧
    (exp_save existing rev externalFailure name force include_untracked).1 =
      experiments_save existing rev externalFailure name force include_untracked ∧
    ((exp_save existing rev externalFailure name force include_untracked).1 =
        Except.error SaveError.experimentExists ↔
      (∃ n, name = some n ∧ n ∈ existing) ∧ force = false) ∧
    (∀ msg, ¬((∃ n, name = some n ∧ n ∈ existing) ∧ force = false) →
      ((exp_save existing rev externalFailure name force include_untracked).1 =
          Except.error (SaveError.other msg) ↔ externalFailure = some msg)) ∧
    (¬((∃ n, name = some n ∧ n ∈ existing) ∧ force = false) → externalFailure = none →
      (exp_save existing rev externalFailure name force include_untracked).1 =
        Except.ok rev) := by
  refine ⟨rfl, rfl, ?_, ?_, ?_⟩
  all_goals
    unfold exp_save experiments_save
    cases name with
    | none => cases force <;> cases externalFailure <;> simp
    | some n =>
        by_cases hm : n ∈ existing
        · have hc : existing.contains n = true := by simpa using hm
          cases force <;> cases externalFailure <;> simp [hc, hm]
        · have hc : existing.contains n = false := by simpa using hm
          cases force <;> cases externalFailure <;> simp [hc, hm]
